import Mathlib

/-!
Shallow embedding of the coap-packet-cpp codec (src/CoapTypes.h, CoapPacket.h,
CoapError.h, CoapBuilder.cpp, CoapParser.cpp).

Modelling conventions:
* Byte buffers (`uint8_t*` plus a length, or `std::vector<uint8_t>`) are
  `List Nat`; entries model `uint8_t` values, hence are below 256 wherever a
  concrete buffer appears, and theorems over symbolic buffers carry explicit
  bounds when the property depends on byte width.
* The parser's `size_t offset` cursor that only moves forward is modelled by
  consuming the remaining suffix of the list; a helper that advanced `offset`
  by `k` is modelled as returning the count `k` of consumed bytes.
* Machine-integer overflow is explicit: a `uint16_t` parameter or result is
  reduced `% 65536` at the conversion point, a `uint32_t` accumulator
  `% 4294967296`, a `uint8_t` store `% 256`.
* Bit operations on disjoint ranges are written arithmetically:
  `x >> 6` is `x / 64`, `x & 0x0F` is `x % 16`, and `a << n | b` with
  `b < 2 ^ n` is `a * 2 ^ n + b`.
-/

namespace Coap

/-- `COAP_VERSION` from CoapTypes.h. -/
def COAP_VERSION : Nat := 1

/-- `MAX_PAYLOAD_SIZE` from CoapTypes.h. -/
def MAX_PAYLOAD_SIZE : Nat := 1024

/-- `PAYLOAD_MARKER` (0xFF) from CoapTypes.h. -/
def PAYLOAD_MARKER : Nat := 255

/-- `MAX_OPTION_VALUE_SIZE` from CoapTypes.h. -/
def MAX_OPTION_VALUE_SIZE : Nat := 1034

/-- `CoapOptionNumber::URI_PATH` from CoapTypes.h. -/
def URI_PATH : Nat := 11

/-- The `CoapError` enumeration from CoapError.h. -/
inductive CoapError where
  | OK
  | DATAGRAM_TOO_SHORT
  | INVALID_VERSION
  | INVALID_TOKEN_LENGTH
  | INVALID_CODE_CLASS
  | INVALID_FORMAT
  | TOO_MANY_OPTIONS
  | OPTION_TOO_LONG
  | PAYLOAD_TOO_LARGE
  | MISSING_REQUIRED_FIELD
  | INVALID_OPTION_NUMBER
  | BUFFER_TOO_SMALL
  | OUT_OF_MEMORY
  | INVALID_ARGUMENT
deriving DecidableEq, Repr

/-- `struct CoapOption` from CoapPacket.h: `uint16_t number` and a byte
vector `value`. -/
structure CoapOption where
  number : Nat
  value : List Nat
deriving DecidableEq, Repr

/-- `struct CoapPacket` from CoapPacket.h.  `token` models the fixed
`uint8_t token[8]` array, so it always has 8 entries; `type` and `code` are
the numeric values of the `CoapType` / `CoapCode` enumerations. -/
structure CoapPacket where
  version : Nat
  type : Nat
  token_length : Nat
  token : List Nat
  code : Nat
  message_id : Nat
  options : List CoapOption
  payload : List Nat
deriving DecidableEq, Repr

/-- `CoapPacket::clear()` (CoapPacket.h): resets every field; the token array
is zeroed.  The result does not depend on the previous contents. -/
def CoapPacket.clear (_p : CoapPacket) : CoapPacket :=
  { version := COAP_VERSION
    type := 0
    token_length := 0
    token := List.replicate 8 0
    code := 0
    message_id := 0
    options := []
    payload := [] }

/-- The `CoapPacket()` default constructor (CoapPacket.h), which produces the
same state as `clear`. -/
def CoapPacket.mkDefault : CoapPacket :=
  { version := COAP_VERSION
    type := 0
    token_length := 0
    token := List.replicate 8 0
    code := 0
    message_id := 0
    options := []
    payload := [] }

/-- `CoapPacket::setToken` (CoapPacket.h): `if (length > 8) length = 8;`
then `memcpy` of `length` bytes over the zero-padded 8-byte array.  The
pointer-plus-length pair is modelled by the list `tokenData` carrying its own
length. -/
def CoapPacket.setToken (p : CoapPacket) (tokenData : List Nat) : CoapPacket :=
  let length := min tokenData.length 8
  { p with
      token_length := length
      token := tokenData.take length ++ List.replicate (8 - length) 0 }

/-- `getCodeClass` (CoapTypes.h): `code >> 5` on a `uint8_t` code. -/
def getCodeClass (code : Nat) : Nat := code / 32

/-- `isValidCodeClass` (CoapTypes.h): classes 1, 6, 7 are reserved. -/
def isValidCodeClass (codeClass : Nat) : Bool :=
  codeClass ≠ 1 && codeClass ≠ 6 && codeClass ≠ 7

namespace CoapParser

/-- `CoapParser::decodeOptionDeltaLength` (CoapParser.cpp).  `rem` is the
unread suffix of the buffer starting at `offset`; the `size_t& offset`
out-parameter is rendered as the returned count of extension bytes consumed.
The `uint16_t result` makes the 16-bit extension wrap: the C++ assigns
`((buffer[offset] << 8) | buffer[offset+1]) + 269` to a `uint16_t`, hence
the `% 65536`. -/
def decodeOptionDeltaLength (rem : List Nat) (field : Nat) :
    Except CoapError (Nat × Nat) :=
  if field < 13 then
    Except.ok (field, 0)
  else if field = 13 then
    match rem with
    | [] => Except.error CoapError.DATAGRAM_TOO_SHORT
    | b :: _ => Except.ok ((b + 13) % 65536, 1)
  else if field = 14 then
    match rem with
    | b1 :: b2 :: _ => Except.ok ((b1 * 256 + b2 + 269) % 65536, 2)
    | _ => Except.error CoapError.DATAGRAM_TOO_SHORT
  else
    Except.error CoapError.INVALID_FORMAT

/-- `CoapParser::parseOptions` (CoapParser.cpp).  Returns the error status,
the options appended to the caller's vector (the C++ pushes each option before
looping, so options parsed before a failure are still returned), the
`hasPayload` flag and the unread suffix after a payload marker. -/
def parseOptionsAux (rem : List Nat) (lastOptionNumber : Nat) :
    CoapError × List CoapOption × Bool × List Nat :=
  match rem with
  | [] => (CoapError.OK, [], false, [])
  | deltaLengthByte :: rest =>
    if deltaLengthByte = PAYLOAD_MARKER then
      (CoapError.OK, [], true, rest)
    else
      let deltaField := deltaLengthByte / 16 % 16
      let lengthField := deltaLengthByte % 16
      match decodeOptionDeltaLength rest deltaField with
      | Except.error e => (e, [], false, [])
      | Except.ok (delta, c1) =>
        match decodeOptionDeltaLength (rest.drop c1) lengthField with
        | Except.error e => (e, [], false, [])
        | Except.ok (length, c2) =>
          let optionNumber := (lastOptionNumber + delta) % 65536
          let rem2 := (rest.drop c1).drop c2
          if rem2.length < length then
            (CoapError.DATAGRAM_TOO_SHORT, [], false, [])
          else if MAX_OPTION_VALUE_SIZE < length then
            (CoapError.OPTION_TOO_LONG, [], false, [])
          else
            let value := rem2.take length
            let r := parseOptionsAux (rem2.drop length) optionNumber
            (r.1, ⟨optionNumber, value⟩ :: r.2.1, r.2.2)
termination_by rem.length
decreasing_by
  simp only [List.length_drop, List.length_cons]
  omega

/-- `CoapParser::parse` (CoapParser.cpp).  The `CoapPacket& packet`
out-parameter comes in as `packet0` and the final state of that packet is
returned next to the error code; the C++ clears it first and mutates it field
by field, so on failure the returned packet holds whatever had been assigned
up to the failure point. -/
def parse (buffer : List Nat) (packet0 : CoapPacket) : CoapError × CoapPacket :=
  let packet := CoapPacket.clear packet0
  match buffer with
  | b0 :: b1 :: b2 :: b3 :: rest =>
    let version := b0 / 64 % 4
    if version ≠ COAP_VERSION then (CoapError.INVALID_VERSION, packet)
    else
      let packet := { packet with
                        version := version
                        type := b0 / 16 % 4
                        token_length := b0 % 16 }
      if 8 < packet.token_length then (CoapError.INVALID_TOKEN_LENGTH, packet)
      else
        let packet := { packet with code := b1 }
        if ¬ isValidCodeClass (getCodeClass packet.code) then
          (CoapError.INVALID_CODE_CLASS, packet)
        else
          let packet := { packet with message_id := b2 * 256 + b3 }
          if rest.length < packet.token_length then
            (CoapError.DATAGRAM_TOO_SHORT, packet)
          else
            let packet := { packet with
                              token := rest.take packet.token_length ++
                                List.replicate (8 - packet.token_length) 0 }
            let rem := rest.drop packet.token_length
            let r := parseOptionsAux rem 0
            let packet := { packet with options := r.2.1 }
            if r.1 ≠ CoapError.OK then (r.1, packet)
            else if r.2.2.1 then
              if r.2.2.2 = [] then (CoapError.INVALID_FORMAT, packet)
              else if MAX_PAYLOAD_SIZE < r.2.2.2.length then
                (CoapError.PAYLOAD_TOO_LARGE, packet)
              else (CoapError.OK, { packet with payload := r.2.2.2 })
            else (CoapError.OK, packet)
  | _ => (CoapError.DATAGRAM_TOO_SHORT, packet)

/-- `CoapParser::decodeUint` (CoapParser.cpp): big-endian accumulation of at
most 4 bytes into a `uint32_t`. -/
def decodeUint (data : List Nat) : Nat :=
  (data.take 4).foldl (fun value b => (value * 256 + b) % 4294967296) 0

end CoapParser

namespace CoapBuilder

/-- The two encoder branches of `CoapBuilder::encodeOptionDeltaLength`
(CoapBuilder.cpp) compute, for one 4-bit field value `v`, the nibble written
into the header byte. -/
def extNibble (v : Nat) : Nat :=
  if v < 13 then v % 16 else if v < 269 then 13 else 14

/-- The extension bytes (`uint8_t` casts made explicit) written for one field
value by `CoapBuilder::encodeOptionDeltaLength`. -/
def extBytes (v : Nat) : List Nat :=
  if v < 13 then []
  else if v < 269 then [(v - 13) % 256]
  else [(v - 269) / 256 % 256, (v - 269) % 256]

/-- `CoapBuilder::encodeOptionDeltaLength` (CoapBuilder.cpp).  The `uint16_t`
parameters wrap at the call boundary, hence the entry `% 65536`.  The header
byte packs the delta nibble above the length nibble (`nibble << 4 | nibble`
on disjoint ranges is `16 * deltaNibble + lengthNibble`), followed by the
delta extension bytes then the length extension bytes; the returned list's
length is the byte count the C++ returns. -/
def encodeOptionDeltaLength (delta0 length0 : Nat) : List Nat :=
  let delta := delta0 % 65536
  let length := length0 % 65536
  (extNibble delta * 16 + extNibble length) :: (extBytes delta ++ extBytes length)

/-- `CoapBuilder::encodeUint` (CoapBuilder.cpp): minimal big-endian encoding
of a `uint32_t`, zero as the empty sequence, each byte stored through a
`uint8_t` cast. -/
def encodeUint (value0 : Nat) : List Nat :=
  let value := value0 % 4294967296
  if value = 0 then []
  else if value ≤ 255 then [value % 256]
  else if value ≤ 65535 then [value / 256 % 256, value % 256]
  else if value ≤ 16777215 then
    [value / 65536 % 256, value / 256 % 256, value % 256]
  else
    [value / 16777216 % 256, value / 65536 % 256, value / 256 % 256, value % 256]

/-- `CoapBuilder::sortOptions` (CoapBuilder.cpp) is `std::sort` with the
comparator `a.number < b.number`.  The C++ standard guarantees only that the
result is sorted by that comparator; the relative order of equal-numbered
options is unspecified.  The model commits to a stable insertion sort, one
behaviour `std::sort` is permitted to exhibit (and the one the documentation
of the enclosing spec assumes). -/
def sortOptions (opts : List CoapOption) : List CoapOption :=
  opts.insertionSort (fun a b => a.number ≤ b.number)

/-- `CoapBuilder::packOptions` (CoapBuilder.cpp), as a recursion over the
(already sorted) option list with the running `uint16_t lastOptionNumber`.
`delta` is the `uint16_t` difference `option.number - lastOptionNumber`
(wrapping subtraction), `length` the `uint16_t` cast of `value.size()`; the
value bytes are appended only when `length > 0`. -/
def packOptionsAux (lastOptionNumber : Nat) (opts : List CoapOption) :
    Except CoapError (List Nat) :=
  match opts with
  | [] => Except.ok []
  | o :: rest =>
    let delta := (o.number % 65536 + 65536 - lastOptionNumber % 65536) % 65536
    let length := o.value.length % 65536
    if MAX_OPTION_VALUE_SIZE < length then
      Except.error CoapError.OPTION_TOO_LONG
    else
      match packOptionsAux o.number rest with
      | Except.error e => Except.error e
      | Except.ok tailBytes =>
        Except.ok (encodeOptionDeltaLength delta length ++
          (if length = 0 then [] else o.value) ++ tailBytes)

/-- `CoapBuilder::validate` (CoapBuilder.cpp): token length, code class,
payload size, then the empty-message invariant, in that order. -/
def validate (p : CoapPacket) : CoapError :=
  if 8 < p.token_length then CoapError.INVALID_TOKEN_LENGTH
  else if ¬ isValidCodeClass (getCodeClass p.code) then
    CoapError.INVALID_CODE_CLASS
  else if MAX_PAYLOAD_SIZE < p.payload.length then CoapError.PAYLOAD_TOO_LARGE
  else if p.code = 0 ∧
      (p.token_length ≠ 0 ∨ p.options ≠ [] ∨ p.payload ≠ []) then
    CoapError.INVALID_FORMAT
  else CoapError.OK

/-- `CoapBuilder::build` (CoapBuilder.cpp): validate, sort the accumulated
packet's options, return the packet. -/
def build (p : CoapPacket) : Except CoapError CoapPacket :=
  match validate p with
  | CoapError.OK => Except.ok { p with options := sortOptions p.options }
  | e => Except.error e

/-- `CoapBuilder::buildBuffer` (CoapBuilder.cpp): validate, sort options,
then serialize the 4-byte header (`(version & 3) << 6 | (type & 3) << 4
| (tkl & 0x0F)` on disjoint bit ranges is the sum below), the token bytes,
the packed options (`packOptions` is skipped by the C++ when the option list
is empty, and produces `[]` then as well), and marker plus payload only when
the payload is non-empty. -/
def buildBuffer (p : CoapPacket) : Except CoapError (List Nat) :=
  match validate p with
  | CoapError.OK =>
    let packet := { p with options := sortOptions p.options }
    let b0 := COAP_VERSION % 4 * 64 + packet.type % 4 * 16 + packet.token_length % 16
    let hdr := [b0, packet.code % 256,
                packet.message_id / 256 % 256, packet.message_id % 256]
    let withToken := hdr ++ packet.token.take packet.token_length
    match packOptionsAux 0 packet.options with
    | Except.error e => Except.error e
    | Except.ok optionBytes =>
      let buf := withToken ++ optionBytes
      Except.ok (if packet.payload = [] then buf
                 else buf ++ PAYLOAD_MARKER :: packet.payload)
  | e => Except.error e

/-- `CoapBuilder::setType` (CoapBuilder.cpp); the `CoapType` argument is its
numeric 2-bit value. -/
def setType (p : CoapPacket) (t : Nat) : CoapPacket := { p with type := t }

/-- `CoapBuilder::setCode` (CoapBuilder.cpp); the `CoapCode` argument is its
numeric 8-bit value. -/
def setCode (p : CoapPacket) (c : Nat) : CoapPacket := { p with code := c }

/-- `CoapBuilder::setMessageId` (CoapBuilder.cpp); `uint16_t` parameter. -/
def setMessageId (p : CoapPacket) (id : Nat) : CoapPacket :=
  { p with message_id := id % 65536 }

/-- `CoapBuilder::setToken` (CoapBuilder.cpp) delegates to
`CoapPacket::setToken`. -/
def setToken (p : CoapPacket) (tok : List Nat) : CoapPacket :=
  p.setToken tok

/-- `CoapBuilder::addOption` (CoapBuilder.cpp): appends one option; string
values are their byte sequences. -/
def addOption (p : CoapPacket) (num : Nat) (value : List Nat) : CoapPacket :=
  { p with options := p.options ++ [⟨num, value⟩] }

/-- `CoapBuilder::setPayload` (CoapBuilder.cpp). -/
def setPayload (p : CoapPacket) (data : List Nat) : CoapPacket :=
  { p with payload := data }

/-- `CoapBuilder::setUriPath` (CoapBuilder.cpp): drop one leading slash, then
the `std::getline` loop over the segments, adding every non-empty segment as
a URI_PATH option.  `getline` with delimiter 47 yields exactly the non-empty
entries that `List.splitOn 47` yields once empty segments are filtered (the
two differ only on empty segments, which the C++ skips). -/
def setUriPath (p : CoapPacket) (path : List Nat) : CoapPacket :=
  if path = [] then p
  else
    let pathCopy := if path.head? = some 47 then path.tail else path
    ((pathCopy.splitOn 47).filter (· ≠ [])).foldl
      (fun q segment => addOption q URI_PATH segment) p

end CoapBuilder

/-- Byte sequence of an ASCII string literal (`std::string` contents). -/
def strBytes (s : String) : List Nat := s.data.map Char.toNat

end Coap

namespace Coap

/-! ### Definitions used by the specification statements -/

/-- Well-formedness of one option as accumulated by the builder: the number
fits the `uint16_t` field, the value respects the 1034-byte option ceiling,
and the value entries are bytes. -/
def WfOption (o : CoapOption) : Prop :=
  o.number < 65536 ∧ o.value.length ≤ MAX_OPTION_VALUE_SIZE ∧ ∀ b ∈ o.value, b < 256

/-- The data-model invariants of a message (spec §3) together with the
representation facts guaranteed by the C++ field types: version is the
protocol constant, type is 2-bit, the token array has 8 byte entries and is
zero beyond `token_length`, code is a byte with a non-reserved class, the
message id fits `uint16_t`, options are well formed, the payload respects
the 1024-byte ceiling, and the empty-message invariant holds. -/
def WfPacket (m : CoapPacket) : Prop :=
  m.version = COAP_VERSION ∧
  m.type < 4 ∧
  m.token_length ≤ 8 ∧
  m.token.length = 8 ∧
  (∀ b ∈ m.token, b < 256) ∧
  m.token.drop m.token_length = List.replicate (8 - m.token_length) 0 ∧
  m.code < 256 ∧
  isValidCodeClass (getCodeClass m.code) = true ∧
  m.message_id < 65536 ∧
  (∀ o ∈ m.options, WfOption o) ∧
  m.payload.length ≤ MAX_PAYLOAD_SIZE ∧
  (∀ b ∈ m.payload, b < 256) ∧
  (m.code = 0 → m.token_length = 0 ∧ m.options = [] ∧ m.payload = [])

/-- Option numbers of a list are bounded below by `lastNum` and
non-decreasing along the list: exactly the precondition under which the
delta encoding of `packOptions` never wraps. -/
def NumsLE (lastNum : Nat) : List CoapOption → Prop
  | [] => True
  | o :: rest => lastNum ≤ o.number ∧ NumsLE o.number rest

/-- The running `lastOptionNumber` after packing or parsing a list of
options that started at `lastNum`. -/
def lastNumAfter (lastNum : Nat) : List CoapOption → Nat
  | [] => lastNum
  | o :: rest => lastNumAfter o.number rest

/-- Round-trip of one value through the delta/length codec, in delta
position (encoded with length 0) and in length position (encoded with
delta 0), together with the total byte count `n` of the encoding counting
the shared header byte once. -/
def deltaLenRoundTrip (v n : Nat) : Prop :=
  let eD := CoapBuilder.encodeOptionDeltaLength v 0
  let eL := CoapBuilder.encodeOptionDeltaLength 0 v
  eD.length = n ∧ eL.length = n ∧
  CoapParser.decodeOptionDeltaLength eD.tail (eD.headI / 16 % 16) =
    Except.ok (v, eD.length - 1) ∧
  CoapParser.decodeOptionDeltaLength eL.tail (eL.headI % 16) =
    Except.ok (v, eL.length - 1)

/-- The builder state of the literal scenario of spec §8: type CON, code
GET, message id 1234, token `[0x12, 0x34]`, uriPath "/sensors/temp". -/
def c9pkt : CoapPacket :=
  CoapBuilder.setUriPath
    (CoapBuilder.setToken
      (CoapBuilder.setMessageId
        (CoapBuilder.setCode (CoapBuilder.setType CoapPacket.mkDefault 0) 1)
        1234)
      [18, 52])
    (strBytes "/sensors/temp")

/-- Builder state with the empty code and a one-byte token, used to
instantiate the empty-message invariant. -/
def c3pkt : CoapPacket := { CoapPacket.mkDefault with token_length := 1 }

/-- The message parsed from the valid 4-byte buffer `[0x40, 0x01, 0x12, 0x34]`:
code GET, message id 0x1234, no token, no options, no payload. -/
def c8pkt : CoapPacket :=
  { version := 1, type := 0, token_length := 0, token := List.replicate 8 0,
    code := 1, message_id := 4660, options := [], payload := [] }

/-- A concrete well-formed message used to instantiate the round-trip
lemma: token `0x12 0x34`, two options with distinct numbers added out of
numeric order, and a small payload. -/
def rtpkt : CoapPacket :=
  { version := 1, type := 0, token_length := 2,
    token := [18, 52, 0, 0, 0, 0, 0, 0],
    code := 1, message_id := 1234,
    options := [⟨12, []⟩, ⟨11, [115, 101]⟩],
    payload := [72, 105] }

end Coap

namespace Coap

/-! ### Claim C2: delta/length codec boundary law -/

/-- C2 counterexample: the claim includes the value 65804, but
`encodeOptionDeltaLength` takes `uint16_t` parameters, so 65804 wraps to 268
at the call boundary: the encoding occupies 2 bytes (not 4) and decodes back
to 268, not 65804. -/
theorem c2_delta_65804_counterexample :
    CoapBuilder.encodeOptionDeltaLength 65804 0 = [208, 255] ∧
    (CoapBuilder.encodeOptionDeltaLength 65804 0).length = 2 ∧
    CoapParser.decodeOptionDeltaLength
      (CoapBuilder.encodeOptionDeltaLength 65804 0).tail
      ((CoapBuilder.encodeOptionDeltaLength 65804 0).headI / 16 % 16) =
      Except.ok (268, 1) ∧
    (268 : Nat) ≠ 65804 ∧ (2 : Nat) ≠ 4 :=
  ⟨rfl, rfl, rfl, by decide, by decide⟩

/-- C2 (amended): encoding then decoding any of 0, 12, 13, 268, 269 as a
delta or as a length returns the value, occupying exactly 1, 1, 2, 2, 3
bytes respectively (header byte counted once); 65804 is outside the
`uint16_t` domain of the codec functions and is dropped. -/
theorem c2_delta_codec_boundary_amended :
    deltaLenRoundTrip 0 1 ∧ deltaLenRoundTrip 12 1 ∧ deltaLenRoundTrip 13 2 ∧
    deltaLenRoundTrip 268 2 ∧ deltaLenRoundTrip 269 3 :=
  ⟨⟨rfl, rfl, rfl, rfl⟩, ⟨rfl, rfl, rfl, rfl⟩, ⟨rfl, rfl, rfl, rfl⟩,
   ⟨rfl, rfl, rfl, rfl⟩, ⟨rfl, rfl, rfl, rfl⟩⟩

/-! ### Claim C3: empty-message invariant -/

/-- C3 counterexample: `CoapParser::parse` performs no empty-message check.
The buffer `[0x41, 0x00, 0x00, 0x00, 0xAA]` has code EMPTY together with a
one-byte token, yet parses with `OK` instead of the invalid-format error the
claim demands. -/
theorem c3_parse_accepts_empty_with_token :
    (CoapParser.parse [65, 0, 0, 0, 170] CoapPacket.mkDefault).1 =
      CoapError.OK ∧
    (CoapParser.parse [65, 0, 0, 0, 170] CoapPacket.mkDefault).2.code = 0 ∧
    (CoapParser.parse [65, 0, 0, 0, 170] CoapPacket.mkDefault).2.token_length = 1 := by
  refine ⟨?_, ?_, ?_⟩ <;>
    simp [CoapParser.parse, CoapParser.parseOptionsAux, CoapPacket.mkDefault,
      CoapPacket.clear, isValidCodeClass, getCodeClass, COAP_VERSION]

/-- C3 (amended): the empty-message invariant is enforced at build time only:
whenever the accumulated packet has code EMPTY with a non-zero token length,
non-empty options, or a non-empty payload (and the earlier token-length and
payload-size checks pass), `validate`, `build` and `buildBuffer` all fail
with the invalid-format error; `parse` performs no such check. -/
theorem c3_build_empty_message_amended (p : CoapPacket)
    (hc : p.code = 0) (ht : p.token_length ≤ 8)
    (hp : p.payload.length ≤ MAX_PAYLOAD_SIZE)
    (hne : p.token_length ≠ 0 ∨ p.options ≠ [] ∨ p.payload ≠ []) :
    CoapBuilder.validate p = CoapError.INVALID_FORMAT ∧
    CoapBuilder.build p = Except.error CoapError.INVALID_FORMAT ∧
    CoapBuilder.buildBuffer p = Except.error CoapError.INVALID_FORMAT := by
  have hv : CoapBuilder.validate p = CoapError.INVALID_FORMAT := by
    unfold CoapBuilder.validate
    rw [hc]
    rw [if_neg (by omega : ¬ 8 < p.token_length)]
    rw [if_neg (by decide :
      ¬ ¬ isValidCodeClass (getCodeClass 0) = true)]
    rw [if_neg (Nat.not_lt.mpr hp)]
    rw [if_pos ⟨rfl, hne⟩]
  refine ⟨hv, ?_, ?_⟩
  · unfold CoapBuilder.build
    rw [hv]
  · unfold CoapBuilder.buildBuffer
    rw [hv]

/-- C3 witness: a packet with the empty code and token length 1 satisfies the
hypotheses and is rejected by `buildBuffer` with invalid-format. -/
theorem c3_build_empty_message_witness :
    (c3pkt.code = 0 ∧ c3pkt.token_length ≤ 8 ∧
     c3pkt.payload.length ≤ MAX_PAYLOAD_SIZE ∧ c3pkt.token_length ≠ 0) ∧
    CoapBuilder.buildBuffer c3pkt = Except.error CoapError.INVALID_FORMAT :=
  ⟨⟨rfl, by decide, by decide, by decide⟩,
   (c3_build_empty_message_amended c3pkt rfl (by decide) (by decide)
     (Or.inl (by decide))).2.2⟩

/-! ### Claim C4: over-long tokens -/

/-- C4 counterexample: a 9-byte token is not rejected.  `setToken` truncates
it to 8 bytes and `buildBuffer` succeeds (first byte `0x48`: token length
nibble 8), where the claim demands an invalid-token-length failure. -/
theorem c4_token_truncated_not_rejected :
    CoapBuilder.buildBuffer
      (CoapBuilder.setToken (CoapBuilder.setCode CoapPacket.mkDefault 1)
        [1, 2, 3, 4, 5, 6, 7, 8, 9]) =
      Except.ok [72, 1, 0, 0, 1, 2, 3, 4, 5, 6, 7, 8] ∧
    (CoapBuilder.setToken (CoapBuilder.setCode CoapPacket.mkDefault 1)
        [1, 2, 3, 4, 5, 6, 7, 8, 9]).token_length = 8 :=
  ⟨rfl, rfl⟩

/-- C4 (amended): a token input longer than 8 bytes is silently truncated to
its first 8 bytes by `setToken`; the stored token length becomes 8, so
`validate` can never fail with the invalid-token-length error for a token
that came through the setter. -/
theorem c4_setToken_truncates_amended (p : CoapPacket) (t : List Nat)
    (h : 8 < t.length) :
    (CoapBuilder.setToken p t).token_length = 8 ∧
    (CoapBuilder.setToken p t).token = t.take 8 ∧
    CoapBuilder.validate (CoapBuilder.setToken p t) ≠
      CoapError.INVALID_TOKEN_LENGTH := by
  have hmin : min t.length 8 = 8 := by omega
  refine ⟨?_, ?_, ?_⟩
  · simp [CoapBuilder.setToken, CoapPacket.setToken, hmin]
  · simp [CoapBuilder.setToken, CoapPacket.setToken, hmin]
  · have h8 : (CoapBuilder.setToken p t).token_length = 8 := by
      simp [CoapBuilder.setToken, CoapPacket.setToken, hmin]
    unfold CoapBuilder.validate
    rw [h8]
    rw [if_neg (by omega : ¬ 8 < 8)]
    split_ifs <;> simp

/-- C4 witness: the truncation theorem applied to the default packet and the
9-byte token `[1..9]`. -/
theorem c4_setToken_truncates_witness :
    8 < ([1, 2, 3, 4, 5, 6, 7, 8, 9] : List Nat).length ∧
    (CoapBuilder.setToken CoapPacket.mkDefault
      [1, 2, 3, 4, 5, 6, 7, 8, 9]).token_length = 8 :=
  ⟨by decide,
   (c4_setToken_truncates_amended CoapPacket.mkDefault
     [1, 2, 3, 4, 5, 6, 7, 8, 9] (by decide)).1⟩

/-! ### Claim C5: failure leaves no message visible -/

/-- C5 counterexample: the out-parameter packet is visible to the caller
after a failed parse, and it has been cleared and partially populated.
Parsing `[0x41, 0x20, 0x00, 0x00, 0xAA]` fails with invalid-code-class, yet
the caller's packet (which held message id 7) now holds the cleared default
with token length 1 and code 0x20 assigned before the failing check. -/
theorem c5_partial_packet_visible :
    CoapParser.parse [65, 32, 0, 0, 170]
        { CoapPacket.mkDefault with message_id := 7 } =
      (CoapError.INVALID_CODE_CLASS,
       { version := 1, type := 0, token_length := 1,
         token := List.replicate 8 0, code := 32, message_id := 0,
         options := [], payload := [] }) ∧
    (7 : Nat) ≠ 0 :=
  ⟨rfl, by decide⟩

/-- C5 (amended): on every path, success or failure, the final state of the
out-parameter packet is a function of the input buffer alone: `parse` clears
the caller's packet before reading anything, so no caller-held state survives
into the result, and on failure the caller distinguishes the outcome only by
the returned error code (the packet itself is cleared-then-partially
populated, not left untouched). -/
theorem c5_parse_result_ignores_prior_packet (buffer : List Nat)
    (p q : CoapPacket) :
    CoapParser.parse buffer p = CoapParser.parse buffer q := rfl

end Coap

namespace Coap

/-! ### Claim C9: literal build scenario -/

/-- C9 counterexample: the built buffer begins
`0x42 0x01 0x04 0xD2 0x12 0x34`, not `0x48 ...` as the claim states.  Byte 0
is `(1 << 6) | (0 << 4) | 2 = 0x42` (version 1 in bits 7-6, type CON in bits
5-4, token length 2 in bits 3-0), whereas `0x48` would carry token-length
nibble 8.  The first six bytes (header and token) do not depend on the order
`std::sort` gives the two equal-numbered options. -/
theorem c9_literal_byte0_counterexample :
    (CoapBuilder.buildBuffer c9pkt).map (List.take 6) =
      Except.ok [66, 1, 4, 210, 18, 52] ∧
    (66 : Nat) ≠ 72 :=
  ⟨rfl, by decide⟩

/-- C9 (amended): building {type CON, code GET, message id 1234, token
`[0x12, 0x34]`, uriPath "/sensors/temp"} yields a buffer beginning
`0x42 0x01 0x04 0xD2 0x12 0x34`, followed by the two URI_PATH options
"sensors" and "temp" delta-encoded from option number 11 in one of the two
arrangements the unspecified equal-key order of `std::sort` permits: either
header `0xB7` (delta 11, length 7) with "sensors" then header `0x04`
(delta 0, length 4) with "temp" — the order the spec describes — or header
`0xB4` with "temp" then header `0x07` with "sensors".  Both disjuncts hold
of the program under the C++ standard; the model realizes the first. -/
theorem c9_literal_scenario_amended :
    (CoapBuilder.buildBuffer c9pkt).map (List.take 6) =
      Except.ok [66, 1, 4, 210, 18, 52] ∧
    ((CoapBuilder.buildBuffer c9pkt).map (List.drop 6) =
      Except.ok ([183] ++ strBytes "sensors" ++ [4] ++ strBytes "temp") ∨
     (CoapBuilder.buildBuffer c9pkt).map (List.drop 6) =
      Except.ok ([180] ++ strBytes "temp" ++ [7] ++ strBytes "sensors")) :=
  ⟨rfl, Or.inl rfl⟩

/-! ### Claim C10: encodeUint / decodeUint round-trip -/

/-- C10: for every 32-bit value, `decodeUint` of `encodeUint v` (the list
carries its own length) returns `v`; zero encodes as the empty sequence and
the empty sequence decodes to zero. -/
theorem c10_uint_roundtrip :
    (∀ v, v < 4294967296 →
      CoapParser.decodeUint (CoapBuilder.encodeUint v) = v) ∧
    CoapBuilder.encodeUint 0 = [] ∧ CoapParser.decodeUint [] = 0 := by
  refine ⟨?_, rfl, rfl⟩
  intro v hv
  simp only [CoapBuilder.encodeUint, Nat.mod_eq_of_lt hv]
  split_ifs with h0 h1 h2 h3 <;>
    simp [CoapParser.decodeUint] <;> omega

/-- C10 witness: the round-trip applied at `0x12345678`. -/
theorem c10_uint_roundtrip_witness :
    305419896 < 4294967296 ∧
    CoapParser.decodeUint (CoapBuilder.encodeUint 305419896) = 305419896 :=
  ⟨by norm_num, c10_uint_roundtrip.1 305419896 (by norm_num)⟩

/-! ### Claim C7: option value length above 1034 -/

/-- C7 counterexample: the buffer
`[0x40, 0x01, 0x00, 0x00, 0x0E, 0x06, 0xC3]` declares an option value
length of 2000 (> 1034) with no value bytes following; the claim demands
option-too-long, but `parse` checks that the value fits in the buffer first
and returns datagram-too-short. -/
theorem c7_too_short_checked_before_too_long :
    (CoapParser.parse [64, 1, 0, 0, 14, 6, 195] CoapPacket.mkDefault).1 =
      CoapError.DATAGRAM_TOO_SHORT ∧
    CoapError.DATAGRAM_TOO_SHORT ≠ CoapError.OPTION_TOO_LONG := by
  refine ⟨?_, by decide⟩
  simp [CoapParser.parse, CoapParser.parseOptionsAux,
    CoapParser.decodeOptionDeltaLength, CoapPacket.mkDefault, CoapPacket.clear,
    isValidCodeClass, getCodeClass, COAP_VERSION, PAYLOAD_MARKER,
    MAX_OPTION_VALUE_SIZE]

end Coap

namespace Coap

/-! ### Shared lemmas about the option codec -/

theorem extNibble_le (v : Nat) : CoapBuilder.extNibble v ≤ 14 := by
  unfold CoapBuilder.extNibble
  split_ifs <;> omega

/-- Decoding the extension bytes written for a 16-bit value, with the
matching nibble, recovers the value and consumes exactly those bytes. -/
theorem decode_extBytes (v : Nat) (rest : List Nat) (hv : v < 65536) :
    CoapParser.decodeOptionDeltaLength (CoapBuilder.extBytes v ++ rest)
      (CoapBuilder.extNibble v) =
      Except.ok (v, (CoapBuilder.extBytes v).length) := by
  by_cases h1 : v < 13
  · simp [CoapBuilder.extBytes, CoapBuilder.extNibble,
      CoapParser.decodeOptionDeltaLength, h1, Nat.mod_eq_of_lt (by omega : v < 16)]
  · by_cases h2 : v < 269
    · simp only [CoapBuilder.extBytes, CoapBuilder.extNibble, if_neg h1, if_pos h2]
      simp [CoapParser.decodeOptionDeltaLength]
      omega
    · simp only [CoapBuilder.extBytes, CoapBuilder.extNibble, if_neg h1, if_neg h2]
      simp [CoapParser.decodeOptionDeltaLength]
      omega

theorem parseOptionsAux_nil (last : Nat) :
    CoapParser.parseOptionsAux [] last = (CoapError.OK, [], false, []) := by
  simp [CoapParser.parseOptionsAux]

theorem parseOptionsAux_marker (rest : List Nat) (last : Nat) :
    CoapParser.parseOptionsAux (PAYLOAD_MARKER :: rest) last =
      (CoapError.OK, [], true, rest) := by
  simp [CoapParser.parseOptionsAux]

/-- One encoded option at the head of the option section parses back to the
option and hands the rest of the scan to the recursive call with the new
running option number. -/
theorem parseOptionsAux_encoded_cons (number last : Nat) (value tailB : List Nat)
    (hlast : last ≤ number) (hnum : number < 65536)
    (hlen : value.length ≤ 1034) :
    CoapParser.parseOptionsAux
      (CoapBuilder.encodeOptionDeltaLength (number - last) value.length ++
        value ++ tailB) last =
      ((CoapParser.parseOptionsAux tailB number).1,
       ⟨number, value⟩ :: (CoapParser.parseOptionsAux tailB number).2.1,
       (CoapParser.parseOptionsAux tailB number).2.2) := by
  have hD : number - last < 65536 := by omega
  have hL : value.length < 65536 := by omega
  have hnd := extNibble_le (number - last)
  have hnl := extNibble_le value.length
  have h255 : ¬ (CoapBuilder.extNibble (number - last) * 16 +
      CoapBuilder.extNibble value.length = PAYLOAD_MARKER) := by
    simp only [PAYLOAD_MARKER]
    omega
  have hdf : (CoapBuilder.extNibble (number - last) * 16 +
      CoapBuilder.extNibble value.length) / 16 % 16 =
      CoapBuilder.extNibble (number - last) := by omega
  have hlf : (CoapBuilder.extNibble (number - last) * 16 +
      CoapBuilder.extNibble value.length) % 16 =
      CoapBuilder.extNibble value.length := by omega
  have hon : (last + (number - last)) % 65536 = number := by omega
  have hfit : ¬ ((value ++ tailB).length < value.length) := by
    simp only [List.length_append]
    omega
  have htl : ¬ (MAX_OPTION_VALUE_SIZE < value.length) := by
    simp only [MAX_OPTION_VALUE_SIZE]
    omega
  unfold CoapBuilder.encodeOptionDeltaLength
  simp only [Nat.mod_eq_of_lt hD, Nat.mod_eq_of_lt hL, List.cons_append,
    List.append_assoc]
  rw [CoapParser.parseOptionsAux]
  simp only [if_neg h255, hdf, hlf,
    decode_extBytes _ _ hD, decode_extBytes _ _ hL, List.drop_left,
    hon, if_neg hfit, if_neg htl, List.take_left, List.drop_left]

end Coap

namespace Coap

/-! ### Lemmas about extending a fully scanned option section -/

theorem decode_error_ne_ok (rem : List Nat) (f : Nat) (e : CoapError)
    (h : CoapParser.decodeOptionDeltaLength rem f = Except.error e) :
    e ≠ CoapError.OK := by
  unfold CoapParser.decodeOptionDeltaLength at h
  split_ifs at h
  · cases rem with
    | nil =>
      injection h with h
      subst h
      decide
    | cons b r => exact Except.noConfusion h
  · cases rem with
    | nil =>
      injection h with h
      subst h
      decide
    | cons b r =>
      cases r with
      | nil =>
        injection h with h
        subst h
        decide
      | cons b2 r2 => exact Except.noConfusion h
  · injection h with h
    subst h
    decide

theorem decode_consumed_le (rem : List Nat) (f v c : Nat)
    (h : CoapParser.decodeOptionDeltaLength rem f = Except.ok (v, c)) :
    c ≤ rem.length := by
  unfold CoapParser.decodeOptionDeltaLength at h
  split_ifs at h
  · simp only [Except.ok.injEq, Prod.mk.injEq] at h
    omega
  · cases rem with
    | nil => exact Except.noConfusion h
    | cons b r =>
      simp only [Except.ok.injEq, Prod.mk.injEq] at h
      simp only [List.length_cons]
      omega
  · cases rem with
    | nil => exact Except.noConfusion h
    | cons b r =>
      cases r with
      | nil => exact Except.noConfusion h
      | cons b2 r2 =>
        simp only [Except.ok.injEq, Prod.mk.injEq] at h
        simp only [List.length_cons]
        omega

/-- A successful decode only looks at the bytes it consumes, so appending
more bytes does not change its result. -/
theorem decode_append (rem ext : List Nat) (f v c : Nat)
    (h : CoapParser.decodeOptionDeltaLength rem f = Except.ok (v, c)) :
    CoapParser.decodeOptionDeltaLength (rem ++ ext) f = Except.ok (v, c) := by
  unfold CoapParser.decodeOptionDeltaLength at h ⊢
  split_ifs at h ⊢
  · exact h
  · cases rem with
    | nil => exact Except.noConfusion h
    | cons b r => exact h
  · cases rem with
    | nil => exact Except.noConfusion h
    | cons b r =>
      cases r with
      | nil => exact Except.noConfusion h
      | cons b2 r2 => exact h

end Coap

namespace Coap

/-- A scan of the option section that succeeds without finding a payload
marker has consumed the whole buffer; appending one marker byte makes the
same scan succeed with the payload flag set and nothing after the marker. -/
theorem parseOptionsAux_extend (n : Nat) :
    ∀ (rem : List Nat), rem.length ≤ n →
    ∀ (last : Nat) (opts : List CoapOption) (rest0 : List Nat),
      CoapParser.parseOptionsAux rem last = (CoapError.OK, opts, false, rest0) →
      rest0 = [] ∧
      CoapParser.parseOptionsAux (rem ++ [PAYLOAD_MARKER]) last =
        (CoapError.OK, opts, true, []) := by
  induction n with
  | zero =>
    intro rem hlen last opts rest0 h
    have hnil : rem = [] := List.length_eq_zero.mp (by omega)
    subst hnil
    rw [parseOptionsAux_nil] at h
    simp only [Prod.mk.injEq] at h
    obtain ⟨-, h2, -, h4⟩ := h
    subst h2
    subst h4
    exact ⟨rfl, by rw [List.nil_append, parseOptionsAux_marker]⟩
  | succ n ih =>
    intro rem hlen last opts rest0 h
    cases rem with
    | nil =>
      rw [parseOptionsAux_nil] at h
      simp only [Prod.mk.injEq] at h
      obtain ⟨-, h2, -, h4⟩ := h
      subst h2
      subst h4
      exact ⟨rfl, by rw [List.nil_append, parseOptionsAux_marker]⟩
    | cons b rest =>
      by_cases hb : b = PAYLOAD_MARKER
      · subst hb
        rw [parseOptionsAux_marker] at h
        simp only [Prod.mk.injEq] at h
        exact absurd h.2.2.1 (by decide)

      · rw [CoapParser.parseOptionsAux] at h
        rw [if_neg hb] at h
        simp only [] at h
        rcases hd1 : CoapParser.decodeOptionDeltaLength rest (b / 16 % 16) with e1 | dc1
        · rw [hd1] at h
          simp only [Prod.mk.injEq] at h
          exact absurd h.1 (decode_error_ne_ok _ _ _ hd1)
        · obtain ⟨delta, c1⟩ := dc1
          rw [hd1] at h
          simp only [] at h
          rcases hd2 : CoapParser.decodeOptionDeltaLength (rest.drop c1) (b % 16) with e2 | dc2
          · rw [hd2] at h
            simp only [Prod.mk.injEq] at h
            exact absurd h.1 (decode_error_ne_ok _ _ _ hd2)
          · obtain ⟨length, c2⟩ := dc2
            rw [hd2] at h
            simp only [] at h
            by_cases hfit : ((rest.drop c1).drop c2).length < length
            · rw [if_pos hfit] at h
              simp only [Prod.mk.injEq] at h
              exact absurd h.1 (by decide)
            · rw [if_neg hfit] at h
              by_cases htoolong : MAX_OPTION_VALUE_SIZE < length
              · rw [if_pos htoolong] at h
                simp only [Prod.mk.injEq] at h
                exact absurd h.1 (by decide)
              · rw [if_neg htoolong] at h
                simp only [Prod.mk.injEq] at h
                obtain ⟨h1, h2, h34⟩ := h
                have hr : CoapParser.parseOptionsAux
                    (((rest.drop c1).drop c2).drop length) ((last + delta) % 65536) =
                    (CoapError.OK,
                     (CoapParser.parseOptionsAux (((rest.drop c1).drop c2).drop length)
                       ((last + delta) % 65536)).2.1, false, rest0) := by
                  rw [← h1, ← h34]
                have hlen2 : ((((rest.drop c1).drop c2).drop length)).length ≤ n := by
                  simp only [List.length_drop, List.length_cons] at *
                  omega
                obtain ⟨hrest0, hext⟩ := ih _ hlen2 _ _ _ hr
                refine ⟨hrest0, ?_⟩
                rw [List.cons_append]
                rw [CoapParser.parseOptionsAux]
                rw [if_neg hb]
                simp only []
                have hc1le := decode_consumed_le _ _ _ _ hd1
                have hc2le := decode_consumed_le _ _ _ _ hd2
                rw [decode_append rest [PAYLOAD_MARKER] _ _ _ hd1]
                simp only []
                rw [List.drop_append_of_le_length hc1le]
                rw [decode_append (rest.drop c1) [PAYLOAD_MARKER] _ _ _ hd2]
                simp only []
                rw [List.drop_append_of_le_length hc2le]
                rw [if_neg (by
                  simp only [List.length_append, List.length_cons, List.length_nil]
                  omega)]
                rw [if_neg htoolong]
                rw [List.take_append_of_le_length (by omega)]
                rw [List.drop_append_of_le_length (by omega)]
                rw [hext]
                rw [h2]

end Coap

namespace Coap

/-- C8: a buffer whose option scan runs cleanly to the end with no payload
(that is the precondition for the final byte of the extended buffer to be
read in option-header position) becomes invalid when a payload marker is
appended as the final byte with nothing after it: `parse` reports the
invalid-format error, not an empty payload. -/
theorem c8_lone_marker_invalid_format (buf : List Nat) (packet0 m : CoapPacket)
    (h : CoapParser.parse buf packet0 = (CoapError.OK, m))
    (hpl : m.payload = []) :
    (CoapParser.parse (buf ++ [PAYLOAD_MARKER]) packet0).1 =
      CoapError.INVALID_FORMAT := by
  match buf with
  | [] => unfold CoapParser.parse at h; simp at h
  | [b0] => unfold CoapParser.parse at h; simp at h
  | [b0, b1] => unfold CoapParser.parse at h; simp at h
  | [b0, b1, b2] => unfold CoapParser.parse at h; simp at h
  | b0 :: b1 :: b2 :: b3 :: rest =>
    rw [List.cons_append, List.cons_append, List.cons_append, List.cons_append]
    unfold CoapParser.parse at h ⊢
    simp only [] at h ⊢
    by_cases hv : b0 / 64 % 4 ≠ COAP_VERSION
    · rw [if_pos hv] at h
      simp at h
    · rw [if_neg hv] at h
      rw [if_neg hv]
      by_cases htl : 8 < b0 % 16
      · rw [if_pos htl] at h
        simp at h
      · rw [if_neg htl] at h
        rw [if_neg htl]
        by_cases hcc : ¬ isValidCodeClass (getCodeClass b1)
        · rw [if_pos hcc] at h
          simp at h
        · rw [if_neg hcc] at h
          rw [if_neg hcc]
          by_cases htk : rest.length < b0 % 16
          · rw [if_pos htk] at h
            simp at h
          · rw [if_neg htk] at h
            rw [if_neg (show ¬ ((rest ++ [PAYLOAD_MARKER]).length < b0 % 16) by
              simp only [List.length_append, List.length_cons, List.length_nil]
              omega)]
            rw [List.take_append_of_le_length (by omega)]
            rw [List.drop_append_of_le_length (by omega)]
            rcases hra : CoapParser.parseOptionsAux (rest.drop (b0 % 16)) 0 with ⟨e, opts, hp, pb⟩
            rw [hra] at h
            simp only [] at h
            by_cases he : e = CoapError.OK
            · subst he
              rw [if_neg (by simp)] at h
              cases hp with
              | true =>
                rw [if_pos rfl] at h
                by_cases hpb : pb = []
                · rw [if_pos hpb] at h
                  simp at h
                · rw [if_neg hpb] at h
                  by_cases hbig : MAX_PAYLOAD_SIZE < pb.length
                  · rw [if_pos hbig] at h
                    simp at h
                  · rw [if_neg hbig] at h
                    simp only [Prod.mk.injEq] at h
                    obtain ⟨-, hm⟩ := h
                    rw [← hm] at hpl
                    simp at hpl
                    exact absurd hpl hpb
              | false =>
                obtain ⟨hpb0, hext⟩ :=
                  parseOptionsAux_extend (rest.drop (b0 % 16)).length
                    (rest.drop (b0 % 16)) (le_refl _) 0 opts pb hra
                rw [hext]
                simp
            · rw [if_pos (by simpa using he)] at h
              simp only [Prod.mk.injEq] at h
              exact absurd h.1 he

end Coap

namespace Coap

/-- C8 witness: `[0x40, 0x01, 0x12, 0x34]` parses cleanly with empty
payload; with a lone `0xFF` appended, parsing fails with invalid-format. -/
theorem c8_lone_marker_witness :
    CoapParser.parse [64, 1, 18, 52] CoapPacket.mkDefault =
      (CoapError.OK, c8pkt) ∧
    c8pkt.payload = [] ∧
    (CoapParser.parse ([64, 1, 18, 52] ++ [PAYLOAD_MARKER])
      CoapPacket.mkDefault).1 = CoapError.INVALID_FORMAT := by
  have h : CoapParser.parse [64, 1, 18, 52] CoapPacket.mkDefault =
      (CoapError.OK, c8pkt) := by
    simp [CoapParser.parse, CoapParser.parseOptionsAux, CoapPacket.mkDefault,
      CoapPacket.clear, isValidCodeClass, getCodeClass, COAP_VERSION, c8pkt]
  exact ⟨h, rfl, c8_lone_marker_invalid_format _ _ _ h rfl⟩

end Coap

namespace Coap

/-- C7 (amended): for an option whose value length field decodes to a value
above 1034 (here through the 16-bit extension: length `hi * 256 + lo + 269`),
`parse` returns option-too-long exactly when that many value bytes remain in
the buffer; the remaining-bytes check comes first, so when the declared
length also exceeds the remaining buffer the result is datagram-too-short,
not option-too-long. -/
theorem c7_option_too_long_amended (hi lo : Nat) (rest : List Nat)
    (packet0 : CoapPacket) (hhi : hi < 256) (hlo : lo < 256)
    (hbig : MAX_OPTION_VALUE_SIZE < hi * 256 + lo + 269)
    (hcap : hi * 256 + lo + 269 < 65536) :
    (hi * 256 + lo + 269 ≤ rest.length →
      (CoapParser.parse ([64, 1, 0, 0, 14, hi, lo] ++ rest) packet0).1 =
        CoapError.OPTION_TOO_LONG) ∧
    (rest.length < hi * 256 + lo + 269 →
      (CoapParser.parse ([64, 1, 0, 0, 14, hi, lo] ++ rest) packet0).1 =
        CoapError.DATAGRAM_TOO_SHORT) := by
  have hdec : CoapParser.decodeOptionDeltaLength (hi :: lo :: rest) 14 =
      Except.ok (hi * 256 + lo + 269, 2) := by
    unfold CoapParser.decodeOptionDeltaLength
    norm_num [Nat.mod_eq_of_lt hcap]
  have hdec0 : CoapParser.decodeOptionDeltaLength (hi :: lo :: rest) 0 =
      Except.ok (0, 0) := by
    unfold CoapParser.decodeOptionDeltaLength
    norm_num
  have hscan : CoapParser.parseOptionsAux (14 :: hi :: lo :: rest) 0 =
      (if rest.length < hi * 256 + lo + 269 then
        (CoapError.DATAGRAM_TOO_SHORT, ([] : List CoapOption), false,
          ([] : List Nat))
       else (CoapError.OPTION_TOO_LONG, [], false, [])) := by
    rw [CoapParser.parseOptionsAux]
    rw [if_neg (by norm_num [PAYLOAD_MARKER])]
    simp only []
    norm_num [hdec0, hdec]
    by_cases hc : rest.length < hi * 256 + lo + 269
    · rw [if_pos hc, if_pos hc]
    · rw [if_neg hc, if_neg hc, if_pos hbig]
  constructor
  · intro hle
    have hscan2 : CoapParser.parseOptionsAux (14 :: hi :: lo :: rest) 0 =
        (CoapError.OPTION_TOO_LONG, [], false, []) := by
      rw [hscan, if_neg (by omega)]
    show (CoapParser.parse (64 :: 1 :: 0 :: 0 :: (14 :: hi :: lo :: rest))
      packet0).1 = _
    unfold CoapParser.parse
    simp only []
    norm_num [hscan2, isValidCodeClass, getCodeClass, COAP_VERSION]
    rw [if_neg (by decide)]
  · intro hlt
    have hscan2 : CoapParser.parseOptionsAux (14 :: hi :: lo :: rest) 0 =
        (CoapError.DATAGRAM_TOO_SHORT, [], false, []) := by
      rw [hscan, if_pos hlt]
    show (CoapParser.parse (64 :: 1 :: 0 :: 0 :: (14 :: hi :: lo :: rest))
      packet0).1 = _
    unfold CoapParser.parse
    simp only []
    norm_num [hscan2, isValidCodeClass, getCodeClass, COAP_VERSION]
    rw [if_neg (by decide)]

end Coap

namespace Coap

/-- C7 witness: length field 2000 with 2000 value bytes present yields
option-too-long. -/
theorem c7_option_too_long_witness :
    ((6 : Nat) < 256 ∧ (195 : Nat) < 256 ∧
     MAX_OPTION_VALUE_SIZE < 6 * 256 + 195 + 269 ∧
     6 * 256 + 195 + 269 < 65536 ∧
     6 * 256 + 195 + 269 ≤ (List.replicate 2000 0).length) ∧
    (CoapParser.parse ([64, 1, 0, 0, 14, 6, 195] ++ List.replicate 2000 0)
      CoapPacket.mkDefault).1 = CoapError.OPTION_TOO_LONG :=
  ⟨⟨by norm_num, by norm_num, by norm_num [MAX_OPTION_VALUE_SIZE],
    by norm_num, by norm_num [List.length_replicate]⟩,
   (c7_option_too_long_amended 6 195 (List.replicate 2000 0)
     CoapPacket.mkDefault (by norm_num) (by norm_num)
     (by norm_num [MAX_OPTION_VALUE_SIZE]) (by norm_num)).1
     (by norm_num [List.length_replicate])⟩

end Coap

namespace Coap

/-- Packing a list of options whose numbers are bounded below by `last` and
non-decreasing, with all values within the 1034 ceiling, succeeds, and the
option scanner run on the packed bytes (followed by anything) recovers
exactly those options before scanning the remainder with the running number
advanced to the last option's number. -/
theorem packOptionsAux_ok_parse (opts : List CoapOption) :
    ∀ (last : Nat), last < 65536 → NumsLE last opts →
    (∀ o ∈ opts, o.number < 65536 ∧ o.value.length ≤ 1034) →
    ∃ bytes, CoapBuilder.packOptionsAux last opts = Except.ok bytes ∧
      ∀ tailB, CoapParser.parseOptionsAux (bytes ++ tailB) last =
        ((CoapParser.parseOptionsAux tailB (lastNumAfter last opts)).1,
         opts ++ (CoapParser.parseOptionsAux tailB (lastNumAfter last opts)).2.1,
         (CoapParser.parseOptionsAux tailB (lastNumAfter last opts)).2.2) := by
  induction opts with
  | nil =>
    intro last _ _ _
    exact ⟨[], rfl, fun tailB => rfl⟩
  | cons o rest ih =>
    intro last hlast hnums hwf
    obtain ⟨hlo, hnrest⟩ := hnums
    obtain ⟨honum, holen⟩ := hwf o (List.mem_cons_self o rest)
    obtain ⟨bytes, hpack, hparse⟩ := ih o.number honum hnrest
      (fun x hx => hwf x (List.mem_cons_of_mem o hx))
    refine ⟨CoapBuilder.encodeOptionDeltaLength (o.number - last)
      o.value.length ++ o.value ++ bytes, ?_, ?_⟩
    · have hdelta : (o.number % 65536 + 65536 - last % 65536) % 65536 =
          o.number - last := by omega
      have hlen65 : o.value.length % 65536 = o.value.length :=
        Nat.mod_eq_of_lt (by omega)
      simp only [CoapBuilder.packOptionsAux, hdelta, hlen65, hpack,
        if_neg (show ¬ MAX_OPTION_VALUE_SIZE < o.value.length by
          simp only [MAX_OPTION_VALUE_SIZE]; omega)]
      by_cases hv0 : o.value.length = 0
      · simp [hv0, List.length_eq_zero.mp hv0]
      · simp [hv0]
    · intro tailB
      have hstep := parseOptionsAux_encoded_cons o.number last o.value
        (bytes ++ tailB) hlo honum holen
      simp only [List.append_assoc] at hstep ⊢
      rw [hstep, hparse tailB]
      simp only [lastNumAfter, List.cons_append]


theorem numsLE_of_sorted (l : List CoapOption) :
    ∀ (last : Nat),
    List.Sorted (fun a b : CoapOption => a.number ≤ b.number) l →
    (∀ o ∈ l, last ≤ o.number) → NumsLE last l := by
  induction l with
  | nil => intro last _ _; trivial
  | cons o rest ih =>
    intro last hs hge
    rw [List.sorted_cons] at hs
    exact ⟨hge o (List.mem_cons_self o rest), ih o.number hs.2 hs.1⟩

theorem sortOptions_sorted (opts : List CoapOption) :
    List.Sorted (fun a b : CoapOption => a.number ≤ b.number)
      (CoapBuilder.sortOptions opts) := by
  have hT : IsTotal CoapOption (fun a b => a.number ≤ b.number) :=
    ⟨fun a b => Nat.le_total a.number b.number⟩
  have hTr : IsTrans CoapOption (fun a b => a.number ≤ b.number) :=
    ⟨fun a b c h1 h2 => Nat.le_trans h1 h2⟩
  exact List.sorted_insertionSort _ _

theorem sortOptions_mem (opts : List CoapOption) (o : CoapOption) :
    o ∈ CoapBuilder.sortOptions opts ↔ o ∈ opts :=
  List.mem_insertionSort _

theorem numsLE_sortOptions (opts : List CoapOption) :
    NumsLE 0 (CoapBuilder.sortOptions opts) :=
  numsLE_of_sorted _ 0 (sortOptions_sorted opts) (fun o _ => Nat.zero_le _)


/-- Round trip under the modelled canonicalization: for every message
satisfying the data-model invariants, building to bytes succeeds and parsing
those bytes succeeds, recovering the version, type, code, message id, token
and payload exactly, with the options replaced by `sortOptions` of the
original options.  `sortOptions` realizes one ordering `std::sort` permits;
on messages with equal-numbered options the source leaves the tie order
unspecified, so only the tie-independent content of this lemma (all scalar
fields, the token, the payload, and the ascending-by-number arrangement) is
a guarantee of the program. -/
theorem build_parse_roundtrip (m packet0 : CoapPacket) (hm : WfPacket m) :
    ∃ buf, CoapBuilder.buildBuffer m = Except.ok buf ∧
      CoapParser.parse buf packet0 =
        (CoapError.OK, { m with options := CoapBuilder.sortOptions m.options }) := by
  obtain ⟨hver, htype, htl, htok8, htokb, htokz, hcode, hclass, hmid, hopts,
    hpay, hpayb, hempty⟩ := hm
  have hval : CoapBuilder.validate m = CoapError.OK := by
    unfold CoapBuilder.validate
    rw [if_neg (by omega : ¬ 8 < m.token_length)]
    rw [if_neg (by simp [hclass])]
    rw [if_neg (Nat.not_lt.mpr hpay)]
    rw [if_neg (show ¬ (m.code = 0 ∧
        (m.token_length ≠ 0 ∨ m.options ≠ [] ∨ m.payload ≠ [])) by
      rintro ⟨hc0, hne⟩
      obtain ⟨e1, e2, e3⟩ := hempty hc0
      rcases hne with hx | hx | hx
      · exact hx e1
      · exact hx e2
      · exact hx e3)]
  have hnums : NumsLE 0 (CoapBuilder.sortOptions m.options) :=
    numsLE_sortOptions _
  have hwfo : ∀ o ∈ CoapBuilder.sortOptions m.options,
      o.number < 65536 ∧ o.value.length ≤ 1034 := by
    intro o ho
    have hw := hopts o ((sortOptions_mem _ _).mp ho)
    refine ⟨hw.1, ?_⟩
    have := hw.2.1
    simpa [MAX_OPTION_VALUE_SIZE] using this
  obtain ⟨optBytes, hpack, hparse⟩ :=
    packOptionsAux_ok_parse _ 0 (by omega) hnums hwfo
  have hb0 : COAP_VERSION % 4 * 64 + m.type % 4 * 16 + m.token_length % 16 =
      64 + m.type * 16 + m.token_length := by
    unfold COAP_VERSION
    omega
  have hcode8 : m.code % 256 = m.code := Nat.mod_eq_of_lt hcode
  have hmidhi : m.message_id / 256 % 256 = m.message_id / 256 :=
    Nat.mod_eq_of_lt (by omega)
  have hbuild : CoapBuilder.buildBuffer m = Except.ok
      ((64 + m.type * 16 + m.token_length) :: m.code ::
        (m.message_id / 256) :: (m.message_id % 256) ::
        (m.token.take m.token_length ++ (optBytes ++
          (if m.payload = [] then [] else PAYLOAD_MARKER :: m.payload)))) := by
    unfold CoapBuilder.buildBuffer
    rw [hval]
    simp only [hpack, hb0, hcode8, hmidhi, List.cons_append, List.nil_append,
      List.append_assoc]
    by_cases hpl : m.payload = []
    · simp [hpl]
    · simp [hpl]
  refine ⟨_, hbuild, ?_⟩
  have hver1 : m.version = 1 := by simpa [COAP_VERSION] using hver
  have hvb : (64 + m.type * 16 + m.token_length) / 64 % 4 = 1 := by omega
  have htb : (64 + m.type * 16 + m.token_length) / 16 % 4 = m.type := by omega
  have htlb : (64 + m.type * 16 + m.token_length) % 16 = m.token_length := by
    omega
  have hmid2 : m.message_id / 256 * 256 + m.message_id % 256 = m.message_id :=
    by omega
  have htake_len : (m.token.take m.token_length).length = m.token_length := by
    simp only [List.length_take, htok8]
    omega
  have htake2 : ∀ X : List Nat,
      ((m.token.take m.token_length) ++ X).take m.token_length =
        m.token.take m.token_length := fun X => by
    rw [List.take_append_of_le_length htake_len.ge, List.take_take]
    simp
  have hdrop2 : ∀ X : List Nat,
      ((m.token.take m.token_length) ++ X).drop m.token_length = X := fun X => by
    rw [List.drop_append_of_le_length htake_len.ge,
      List.drop_eq_nil_of_le htake_len.le, List.nil_append]
  have htokeq : m.token.take m.token_length ++
      List.replicate (8 - m.token_length) 0 = m.token := by
    rw [← htokz]
    exact List.take_append_drop _ _
  unfold CoapParser.parse
  simp only []
  rw [hvb, htb, htlb]
  rw [if_neg (by simp [COAP_VERSION])]
  rw [if_neg (by omega : ¬ 8 < m.token_length)]
  rw [if_neg (by simp [hclass])]
  rw [if_neg (show ¬ ((m.token.take m.token_length ++
      (optBytes ++ (if m.payload = [] then []
        else PAYLOAD_MARKER :: m.payload))).length < m.token_length) by
    simp only [List.length_append, htake_len]
    omega)]
  rw [htake2, hdrop2, htokeq]
  rw [hparse]
  by_cases hpl : m.payload = []
  · rw [if_pos hpl, parseOptionsAux_nil]
    simp only [CoapPacket.clear, List.append_nil, hmid2]
    norm_num [CoapPacket.mk.injEq, hver1, hpl]
  · rw [if_neg hpl, parseOptionsAux_marker]
    simp only [CoapPacket.clear, List.append_nil, hmid2]
    norm_num [CoapPacket.mk.injEq, hver1, hpl, Nat.not_lt.mpr hpay]

end Coap

namespace Coap

/-- The round-trip lemma applied to the concrete message `rtpkt`. -/
theorem build_parse_roundtrip_example :
    WfPacket rtpkt ∧
    ∃ buf, CoapBuilder.buildBuffer rtpkt = Except.ok buf ∧
      CoapParser.parse buf CoapPacket.mkDefault =
        (CoapError.OK,
         { rtpkt with options := CoapBuilder.sortOptions rtpkt.options }) :=
  ⟨by unfold WfPacket WfOption; decide,
   build_parse_roundtrip rtpkt CoapPacket.mkDefault
     (by unfold WfPacket WfOption; decide)⟩

end Coap
